import Mathlib

/-!
Verification development for the bevy_v4l repository (src/src/lib.rs).

Bytes are modelled as `Nat` (the program uses `u8`; every byte produced by the
program is `< 256` by construction of the conversions, which clamp to `[0,255]`).
Fallible operations return `Except`.  The blocking hardware stream calls
(`CaptureStream::next` / `OutputStream::next`) are modelled as oracles: the
frame (or I/O error) they would deliver is passed to `stream_read` /
`stream_write` as an explicit `Except` argument, mirroring the `?` early
return in the Rust source.
-/

namespace BevyV4l

/-- Error payload standing for the `Error::Io(std::io::Error)` variant of the
repository's error enum; the payload itself is never inspected. -/
def IoErr : Type := Nat

/-- Clamp an integer into the byte range `[0, 255]`, as `num_traits::clamp`
does in the pixel conversions of the ffimage_yuv dependency. -/
def clamp255 (x : Int) : Nat := (max 0 (min 255 x)).toNat

/-- Arithmetic shift right by 8 on a (never-overflowing) `i32` value, i.e.
floor division by 256. -/
def asr8 (x : Int) : Int := Int.ediv x 256

/-- YUV -> RGB per-pixel conversion.  Modelled from the ffimage_yuv dependency
(`From<Yuv<u8>> for Rgb<u8>`, ITU-R BT.601 studio swing).  The exact
coefficients do not affect any bounds/preservation theorem below; concrete
witnesses evaluate this definition as written. -/
def yuvToRgb (y u v : Nat) : Nat × Nat × Nat :=
  let c : Int := (y : Int) - 16
  let d : Int := (u : Int) - 128
  let e : Int := (v : Int) - 128
  (clamp255 (asr8 (298 * c + 409 * e + 128)),
   clamp255 (asr8 (298 * c - 100 * d - 208 * e + 128)),
   clamp255 (asr8 (298 * c + 516 * d + 128)))

/-- RGB -> YUV per-pixel conversion, modelled from the ffimage_yuv dependency
(`From<Rgb<u8>> for Yuv<u8>`, ITU-R BT.601 studio swing). -/
def rgbToYuv (r g b : Nat) : Nat × Nat × Nat :=
  (clamp255 (asr8 (66 * r + 129 * g + 25 * b + 128) + 16),
   clamp255 (asr8 (-38 * r - 74 * g + 112 * b + 128) + 128),
   clamp255 (asr8 (112 * r - 94 * g - 18 * b + 128) + 128))

/-- Group a byte sequence into 4-byte macropixels, dropping a partial final
group, as `.pixels::<Yuv422<u8, 0, 2, 1, 3>>()` does over `buf.iter()` in
`stream_read`. -/
def macropixels : List Nat → List (Nat × Nat × Nat × Nat)
  | b0 :: b1 :: b2 :: b3 :: rest => (b0, b1, b2, b3) :: macropixels rest
  | _ => []

/-- RGB pixel stream produced by the `stream_read` YUYV iterator chain:
each macropixel `Yuv422<u8, 0, 2, 1, 3>` (Y0 at byte 0, U at byte 1, Y1 at
byte 2, V at byte 3) yields two YUV pixels sharing the chroma pair, each
converted to RGB. -/
def decodedPixels (src : List Nat) : List (Nat × Nat × Nat) :=
  (macropixels src).flatMap
    (fun m => [yuvToRgb m.1 m.2.1 m.2.2.2, yuvToRgb m.2.2.1 m.2.1 m.2.2.2])

/-- Write one RGB triple into the destination at pixel slot `i`
(`io.buffer[i..i + 3].clone_from_slice(&pixel)` with `i = index * 4`).
`List.set` is a no-op out of range; at every call site of the program the
buffer length equals `size`, so in-range writes coincide with the source. -/
def writePixel (dst : List Nat) (i : Nat) (p : Nat × Nat × Nat) : List Nat :=
  ((dst.set (4 * i) p.1).set (4 * i + 1) p.2.1).set (4 * i + 2) p.2.2

/-- Write loop of the `stream_read` YUYV branch: enumerated pixels are written
at stride 4; the loop breaks as soon as the byte offset `4 * i` reaches
`size`. -/
def decodeLoop (size : Nat) : List (Nat × Nat × Nat) → Nat → List Nat → List Nat
  | [], _, dst => dst
  | p :: rest, i, dst =>
    if size ≤ 4 * i then dst else decodeLoop size rest (i + 1) (writePixel dst i p)

/-- YUYV decode of `stream_read`: convert `src` macropixels to RGB and write
the triples into `dst` (the `io.buffer`), bounded by `size`. -/
def decodeInto (src dst : List Nat) (size : Nat) : List Nat :=
  decodeLoop size (decodedPixels src) 0 dst

/-- Group a byte sequence into 8-byte chunks (two RGBA pixels), dropping a
partial final chunk, as `io.buffer.chunks_exact(8)` does in `stream_write`. -/
def chunks8 : List Nat → List (Nat × Nat × Nat × Nat × Nat × Nat × Nat × Nat)
  | a :: b :: c :: d :: e :: f :: g :: h :: rest =>
      (a, b, c, d, e, f, g, h) :: chunks8 rest
  | _ => []

/-- Pack two YUV pixels into one 4-byte `Yuv422<u8, 0, 2, 1, 3>` macropixel
(Y0 at byte 0, U at byte 1, Y1 at byte 2, V at byte 3), chroma shared between
the pair.  Modelled from the ffimage_yuv dependency. -/
def yuvPairTo422 (p q : Nat × Nat × Nat) : List Nat :=
  [p.1, (p.2.1 + q.2.1) / 2, q.1, (p.2.2 + q.2.2) / 2]

/-- Byte stream produced by the `stream_write` YUYV iterator chain: each
8-byte RGBA pair (alpha bytes at offsets 3 and 7 skipped) becomes two YUV
pixels and then one packed macropixel. -/
def encodeBytes (src : List Nat) : List Nat :=
  (chunks8 src).flatMap
    (fun c => yuvPairTo422 (rgbToYuv c.1 c.2.1 c.2.2.1)
                           (rgbToYuv c.2.2.2.2.1 c.2.2.2.2.2.1 c.2.2.2.2.2.2.1))

/-- Overwrite the front of `dst` with `src`, as `.write(&mut buf.iter_mut())`
does: bytes are copied while both iterators have elements; the tail of `dst`
beyond `src` is left unchanged, and excess `src` bytes are discarded. -/
def writeFront (src dst : List Nat) : List Nat :=
  src.take dst.length ++ dst.drop src.length

/-- Per-buffer metadata of an output stream buffer (the two fields
`stream_write` assigns). -/
structure BufMeta where
  field : Nat
  bytesused : Nat
deriving DecidableEq

/-- Fourcc byte code `b"YUYV"`. -/
def yuyvFourcc : List Nat := [89, 85, 89, 86]

/-- Fourcc byte code `b"IYU2"`. -/
def iyu2Fourcc : List Nat := [73, 89, 85, 50]

/-- Model of `stream_read`: the oracle argument `res` is what
`CaptureStream::next` delivers (a frame or an I/O error, the `?` early
return).  Returns the function result together with the final `io.buffer`. -/
def stream_read (res : Except IoErr (List Nat)) (buffer : List Nat)
    (fourcc : List Nat) (size : Nat) : Except IoErr Unit × List Nat :=
  match res with
  | .error e => (.error e, buffer)
  | .ok buf =>
    if fourcc = yuyvFourcc then (.ok (), decodeInto buf buffer size)
    else if fourcc = iyu2Fourcc then (.ok (), buffer)
    else (.ok (), buffer)

/-- Model of `stream_write`: the oracle argument `res` is what
`OutputStream::next` delivers (the device stream buffer and its metadata, or
an I/O error).  Returns the resulting stream buffer and metadata (on success)
together with the final `io.buffer` (which `stream_write` only reads).  On
the YUYV branch the metadata is assigned `field = 0` and
`bytesused = size as u32 * 3` (u32 truncation made explicit). -/
def stream_write (res : Except IoErr (List Nat × BufMeta)) (buffer : List Nat)
    (fourcc : List Nat) (size : Nat) :
    Except IoErr (List Nat × BufMeta) × List Nat :=
  match res with
  | .error e => (.error e, buffer)
  | .ok (buf, meta) =>
    if fourcc = yuyvFourcc then
      (.ok (writeFront (encodeBytes buffer) buf,
            ⟨0, size % 4294967296 * 3 % 4294967296⟩), buffer)
    else if fourcc = iyu2Fourcc then (.ok (buf, meta), buffer)
    else (.ok (buf, meta), buffer)

/-- Bytes-used field of a `stream_write` result (0 when the call failed). -/
def bytesusedOf : Except IoErr (List Nat × BufMeta) → Nat
  | .ok (_, m) => m.bytesused
  | .error _ => 0

/-- Field-parity field of a `stream_write` result (0 when the call failed). -/
def fieldOf : Except IoErr (List Nat × BufMeta) → Nat
  | .ok (_, m) => m.field
  | .error _ => 0

/-- Scheduler-level view of one `Device` during one cycle: whether
`images.get_mut(device.image.clone())` succeeds this cycle, whether
`futures::check_ready` reports the in-flight task complete this cycle, and
the `task: Option<Task<()>>` slot (tagged with the cycle that spawned it, so
that preservation of the tag expresses that no new unit replaced it). -/
structure SDev where
  imagePresent : Bool
  ready : Bool
  task : Option Nat
deriving DecidableEq

/-- Device loop body of `spawn_io_tasks` (the code is textually identical for
the inputs and the outputs query).  Mirrors the source exactly: a missing
image or a pending task executes `return`, which aborts the whole function —
the returned `Bool` is `false` iff such an abort happened, and the remaining
devices of the list are left untouched. -/
def spawnLoop (cyc : Nat) : List SDev → List SDev × Bool
  | [] => ([], true)
  | d :: rest =>
    if d.imagePresent = false then (d :: rest, false)
    else if d.task.isSome then (d :: rest, false)
    else
      let r := spawnLoop cyc rest
      ({ d with task := some cyc } :: r.1, r.2)

/-- Model of `spawn_io_tasks`: the inputs loop runs first; a `return` inside
it (missing image or pending task) aborts the function, so the outputs loop
is not reached at all in that case. -/
def spawn_io_tasks (cyc : Nat) (ins outs : List SDev) : List SDev × List SDev :=
  let ri := spawnLoop cyc ins
  if ri.2 then (ri.1, (spawnLoop cyc outs).1) else (ri.1, outs)

/-- Device loop body of `poll_io_tasks` (slot bookkeeping only): `continue`
when no task; when `check_ready` reports completion, a missing image
`continue`s without clearing the slot (retried next cycle), otherwise the
swap/copy happens and `device.task = None`. -/
def pollDev (d : SDev) : SDev :=
  match d.task with
  | none => d
  | some _ =>
    if d.ready then (if d.imagePresent then { d with task := none } else d)
    else d

/-- Model of `poll_io_tasks` at the slot level: both loops use `continue`,
so every device is processed independently. -/
def poll_io_tasks (ins outs : List SDev) : List SDev × List SDev :=
  (ins.map pollDev, outs.map pollDev)

/-- Buffer-level state of one `Input` device: the externally owned presentable
image bytes (`Image.data`), the working buffer (`io.buffer`), the device
fourcc, and the in-flight task.  A spawned task records the frame the
capture stream will deliver to it and the `size` captured at spawn time
(`image.width() * image.height() * 4`, i.e. the image byte length). -/
structure InState where
  image : List Nat
  ioBuf : List Nat
  fourcc : List Nat
  task : Option (List Nat × Nat)
deriving DecidableEq

/-- Spawn phase for one `Input` whose image is present: skip if a task is
pending, otherwise spawn one work unit capturing the current image size. -/
def spawnInput (frame : List Nat) (s : InState) : InState :=
  if s.task.isSome then s else { s with task := some (frame, s.image.length) }

/-- Reap phase for one `Input` whose image is present: when `check_ready`
reports completion, the work unit has run `stream_read` on the working
buffer, and `std::mem::swap(&mut image.data, &mut io.buffer)` exchanges the
two buffers (a content swap, no copy); the slot is cleared. -/
def pollInput (ready : Bool) (s : InState) : InState :=
  match s.task with
  | none => s
  | some (frame, sz) =>
    if ready then
      { s with image := (stream_read (Except.ok frame) s.ioBuf s.fourcc sz).2,
               ioBuf := s.image,
               task := none }
    else s

/-- One scheduler cycle for one `Input` device: spawn phase (`PreUpdate`)
followed by reap phase (`Update`), with `frame` the bytes the hardware
delivers to the unit spawned this cycle (ignored if none is spawned) and
`ready` whether the in-flight unit is observed complete this cycle. -/
def inputCycle (frame : List Nat) (ready : Bool) (s : InState) : InState :=
  pollInput ready (spawnInput frame s)

/-- Buffer-level state of one `Output` device. -/
structure OutState where
  image : List Nat
  ioBuf : List Nat
  task : Option Unit
deriving DecidableEq

/-- Reap phase for one `Output` whose image is present: on completion,
`io.buffer = image.data.clone()` copies the presentable bytes into the
working buffer (the image itself is untouched); the slot is cleared. -/
def pollOutput (ready : Bool) (s : OutState) : OutState :=
  match s.task with
  | none => s
  | some _ => if ready then { s with ioBuf := s.image, task := none } else s

/-! Helper lemmas about the decode write loop. -/

theorem writePixel_getElem_ne (dst : List Nat) (i : Nat) (p : Nat × Nat × Nat)
    (j : Nat) (h0 : j ≠ 4 * i) (h1 : j ≠ 4 * i + 1) (h2 : j ≠ 4 * i + 2) :
    (writePixel dst i p)[j]? = dst[j]? := by
  unfold writePixel
  rw [List.getElem?_set_ne (Ne.symm h2), List.getElem?_set_ne (Ne.symm h1),
    List.getElem?_set_ne (Ne.symm h0)]

theorem decodeLoop_getElem_eq (size : Nat) (ps : List (Nat × Nat × Nat))
    (i : Nat) (dst : List Nat) (j : Nat)
    (h : ∀ k o, i ≤ k → k < i + ps.length → 4 * k < size → o < 3 →
      j ≠ 4 * k + o) :
    (decodeLoop size ps i dst)[j]? = dst[j]? := by
  induction ps generalizing i dst with
  | nil => rfl
  | cons p rest ih =>
    unfold decodeLoop
    by_cases hstop : size ≤ 4 * i
    · simp [hstop]
    · have hlt : 4 * i < size := by omega
      simp only [if_neg (by omega : ¬ size ≤ 4 * i)]
      rw [ih (i + 1) (writePixel dst i p)
        (fun k o hk hk2 hsz ho => h k o (by omega) (by simp; omega) hsz ho)]
      exact writePixel_getElem_ne dst i p j
        (h i 0 (le_refl i) (by simp) hlt (by omega))
        (h i 1 (le_refl i) (by simp) hlt (by omega))
        (h i 2 (le_refl i) (by simp) hlt (by omega))

theorem macropixels_take :
    ∀ l : List Nat, macropixels (l.take (4 * (l.length / 4))) = macropixels l
  | [] => rfl
  | [_] => by norm_num; rfl
  | [_, _] => by norm_num; rfl
  | [_, _, _] => by norm_num; rfl
  | b0 :: b1 :: b2 :: b3 :: rest => by
    have ih := macropixels_take rest
    have hlen : (b0 :: b1 :: b2 :: b3 :: rest).length = rest.length + 4 := by
      simp
    have hdiv : (rest.length + 4) / 4 = rest.length / 4 + 1 :=
      Nat.add_div_right _ (by omega)
    have hmul : 4 * (rest.length / 4 + 1) = 4 * (rest.length / 4) + 1 + 1 + 1 + 1 := by
      omega
    rw [hlen, hdiv, hmul]
    simp only [List.take_succ_cons]
    rw [macropixels, macropixels, ih]

theorem decodedPixels_take (src : List Nat) :
    decodedPixels (src.take (4 * (src.length / 4))) = decodedPixels src := by
  unfold decodedPixels
  rw [macropixels_take]

/-- C4 (counterexample): the claim quantifies over every `max_dst_len` smaller
than the full decode length, but for `max_dst_len = 2` (not a multiple of 4)
the YUYV decode of source `[16, 128, 16, 128]` into destination
`[9, 9, 9, 9]` writes the byte at offset `2 ≥ max_dst_len`: the loop checks
only the pixel start offset `4 * i` against the bound before writing three
bytes. -/
theorem c4_counterexample :
    2 < 4 * (decodedPixels [16, 128, 16, 128]).length ∧
    ¬ (decodeInto [16, 128, 16, 128] [9, 9, 9, 9] 2)[2]? = [9, 9, 9, 9][2]? := by
  constructor
  · decide
  · decide

/-- C4 (amended): for every destination bound `size` that is a multiple of 4
(every call site passes `width * height * 4`), the YUYV decode writes no
destination byte at an offset at or beyond `size`, and it never reads past
the end of the source: a partial final macropixel is silently dropped, so the
result only depends on the complete 4-byte macropixels of `src`. -/
theorem c4_decode_bounds (src dst : List Nat) (size : Nat)
    (h4 : size % 4 = 0) :
    (∀ j, size ≤ j → (decodeInto src dst size)[j]? = dst[j]?) ∧
    decodeInto src dst size
      = decodeInto (src.take (4 * (src.length / 4))) dst size := by
  constructor
  · intro j hj
    unfold decodeInto
    exact decodeLoop_getElem_eq size _ 0 dst j (fun k o _ _ hsz ho => by omega)
  · unfold decodeInto
    rw [decodedPixels_take]

/-- C4 (witness): the amended theorem applied at the 4-aligned bound 4 with a
5-byte source (one complete macropixel plus one dangling byte) and a 6-byte
destination. -/
theorem c4_witness :
    (4 : Nat) % 4 = 0 ∧
    (decodeInto [16, 128, 16, 128, 99] [1, 2, 3, 4, 5, 6] 4)[4]?
      = [1, 2, 3, 4, 5, 6][4]? ∧
    decodeInto [16, 128, 16, 128, 99] [1, 2, 3, 4, 5, 6] 4
      = decodeInto
          (List.take (4 * (([16, 128, 16, 128, 99] : List Nat).length / 4))
            [16, 128, 16, 128, 99]) [1, 2, 3, 4, 5, 6] 4 :=
  ⟨by decide, (c4_decode_bounds [16, 128, 16, 128, 99] [1, 2, 3, 4, 5, 6] 4
      (by decide)).1 4 (by decide),
    (c4_decode_bounds [16, 128, 16, 128, 99] [1, 2, 3, 4, 5, 6] 4
      (by decide)).2⟩

/-- C5: the YUYV decode writes only the first three channels of each 4-channel
destination pixel; every destination byte at an offset congruent to 3 modulo
4 (the alpha channel) holds exactly its prior value after the decode. -/
theorem c5_alpha_bytes_untouched (src dst : List Nat) (size j : Nat)
    (hj : j % 4 = 3) :
    (decodeInto src dst size)[j]? = dst[j]? := by
  unfold decodeInto
  exact decodeLoop_getElem_eq size _ 0 dst j (fun k o _ _ _ ho => by omega)

/-- C5 (witness): the alpha byte at offset 3 of the scenario from the spec
(2-by-1 frame, source `[Y0 U Y1 V]`, destination pre-filled with 9) is
untouched. -/
theorem c5_witness :
    (3 : Nat) % 4 = 3 ∧
    (decodeInto [16, 128, 16, 128] [9, 9, 9, 9, 9, 9, 9, 9] 8)[3]?
      = [9, 9, 9, 9, 9, 9, 9, 9][3]? :=
  ⟨by decide,
   c5_alpha_bytes_untouched [16, 128, 16, 128] [9, 9, 9, 9, 9, 9, 9, 9] 8 3
     (by decide)⟩

/-- C10: when the source decodes to fewer pixels than the destination holds
(a short frame), every destination byte at an offset at or beyond four times
the number of decoded pixels keeps exactly its prior value: the stale tail
persists, it is not cleared. -/
theorem c10_short_frame_tail_unchanged (src dst : List Nat) (size : Nat)
    (hshort : 4 * (decodedPixels src).length < size) :
    ∀ j, 4 * (decodedPixels src).length ≤ j →
      (decodeInto src dst size)[j]? = dst[j]? := by
  intro j hj
  unfold decodeInto
  exact decodeLoop_getElem_eq size _ 0 dst j (fun k o hk hk2 hsz ho => by
    simp only [Nat.zero_add] at hk2
    omega)

/-- C10 (witness): a 4-byte source decodes to 2 pixels; with `size = 100` and
a 10-byte destination of fives, the byte at offset 8 is unchanged. -/
theorem c10_witness :
    4 * (decodedPixels [16, 128, 16, 128]).length < 100 ∧
    (decodeInto [16, 128, 16, 128] [5, 5, 5, 5, 5, 5, 5, 5, 5, 5] 100)[8]?
      = [5, 5, 5, 5, 5, 5, 5, 5, 5, 5][8]? :=
  ⟨by decide,
   c10_short_frame_tail_unchanged [16, 128, 16, 128]
     [5, 5, 5, 5, 5, 5, 5, 5, 5, 5] 100 (by decide) 8 (by decide)⟩

/-- C3 (counterexample): the claim says the used-byte count equals
`size * 3 / 4`, but the code assigns `buf_meta.bytesused = size as u32 * 3`.
For a 2-by-2 frame (`size = 16`, a mid-gray working buffer of 16 bytes and an
8-byte stream buffer) the successful YUYV encode reports `bytesused = 48`,
while `16 * 3 / 4 = 12`. -/
theorem c3_counterexample :
    bytesusedOf (stream_write (Except.ok (List.replicate 8 0, ⟨1, 7⟩))
      (List.replicate 16 128) yuyvFourcc 16).1 = 48 ∧
    ¬ bytesusedOf (stream_write (Except.ok (List.replicate 8 0, ⟨1, 7⟩))
      (List.replicate 16 128) yuyvFourcc 16).1 = 16 * 3 / 4 := by
  constructor
  · decide
  · decide

/-- C3 (amended): for every successful YUYV encode, `stream_write` sets the
destination stream buffer's metadata to field parity 0 and used-byte count
`size * 3` (with the `size as u32` truncation made explicit), where `size` is
the unpacked buffer size `width * height * 4` passed in. -/
theorem c3_write_sets_meta (streamBuf srcBuf : List Nat) (m : BufMeta)
    (size : Nat) :
    fieldOf (stream_write (Except.ok (streamBuf, m)) srcBuf yuyvFourcc size).1
      = 0 ∧
    bytesusedOf
        (stream_write (Except.ok (streamBuf, m)) srcBuf yuyvFourcc size).1
      = size % 4294967296 * 3 % 4294967296 := by
  constructor <;> simp [stream_write, fieldOf, bytesusedOf]

/-- C6: for every fourcc other than `b"YUYV"` (the `b"IYU2"` arm and the
wildcard arm of both matches), `stream_read` and `stream_write` perform no
conversion and return success: the working buffer, the stream buffer and its
metadata are byte-for-byte what the blocking stream call delivered. -/
theorem c6_unsupported_fourcc_noop (frame streamBuf rdBuf wrBuf : List Nat)
    (m : BufMeta) (fourcc : List Nat) (size : Nat) (h : fourcc ≠ yuyvFourcc) :
    stream_read (Except.ok frame) rdBuf fourcc size = (Except.ok (), rdBuf) ∧
    stream_write (Except.ok (streamBuf, m)) wrBuf fourcc size
      = (Except.ok (streamBuf, m), wrBuf) := by
  constructor
  · unfold stream_read
    simp only [if_neg h]
    split <;> rfl
  · unfold stream_write
    simp only [if_neg h]
    split <;> rfl

/-- C6 (witness): the no-op at the concrete unsupported fourcc `b"IYU2"`. -/
theorem c6_witness :
    stream_read (Except.ok [1, 2, 3, 4]) [8, 8, 8, 8] iyu2Fourcc 4
      = (Except.ok (), [8, 8, 8, 8]) ∧
    stream_write (Except.ok ([7, 7], ⟨1, 9⟩)) [6, 6, 6, 6, 6, 6, 6, 6]
      iyu2Fourcc 4
      = (Except.ok ([7, 7], ⟨1, 9⟩), [6, 6, 6, 6, 6, 6, 6, 6]) :=
  c6_unsupported_fourcc_noop [1, 2, 3, 4] [7, 7] [8, 8, 8, 8]
    [6, 6, 6, 6, 6, 6, 6, 6] ⟨1, 9⟩ iyu2Fourcc 4 (by decide)

/-- C7: if the blocking stream call fails, `stream_read` and `stream_write`
return the I/O error through the `?` early return and the working buffer is
exactly its prior contents: no byte of it is written on the error path. -/
theorem c7_stream_error_aborts (e1 e2 : IoErr) (rdBuf wrBuf : List Nat)
    (fc1 fc2 : List Nat) (sz1 sz2 : Nat) :
    stream_read (Except.error e1) rdBuf fc1 sz1 = (Except.error e1, rdBuf) ∧
    stream_write (Except.error e2) wrBuf fc2 sz2 = (Except.error e2, wrBuf) :=
  ⟨rfl, rfl⟩

/-! Helper lemmas about the scheduler phases. -/

theorem spawnLoop_busy_preserved (cyc : Nat) (l : List SDev) :
    ∀ (i : Nat) (d : SDev), l[i]? = some d → d.task.isSome = true →
      ((spawnLoop cyc l).1)[i]? = some d := by
  induction l with
  | nil => intro i d hget _; simp at hget
  | cons d0 rest ih =>
    intro i d hget hbusy
    unfold spawnLoop
    by_cases h1 : d0.imagePresent = false
    · simp only [if_pos h1]
      exact hget
    · by_cases h2 : d0.task.isSome = true
      · simp only [if_neg h1, if_pos h2]
        exact hget
      · simp only [if_neg h1, if_neg h2]
        cases i with
        | zero =>
          rw [List.getElem?_cons_zero] at hget
          cases hget
          exact absurd hbusy h2
        | succ n =>
          rw [List.getElem?_cons_succ] at hget
          rw [List.getElem?_cons_succ]
          exact ih n d hget hbusy

theorem spawn_preserves_busy_outputs (cyc : Nat) (ins outs : List SDev) :
    ∀ (i : Nat) (d : SDev), outs[i]? = some d → d.task.isSome = true →
      ((spawn_io_tasks cyc ins outs).2)[i]? = some d := by
  intro i d hget hbusy
  unfold spawn_io_tasks
  by_cases hc : (spawnLoop cyc ins).2
  · simp only [if_pos hc]
    exact spawnLoop_busy_preserved cyc outs i d hget hbusy
  · simp only [if_neg hc]
    exact hget

/-- C1: at most one in-flight task per `Device`.  The `task` slot is an
`Option`, so "at most one" reduces to the two facts the claim names: the
spawn phase leaves every device whose slot is `Some` completely unchanged
(the old unit is preserved, no new unit is spawned for it — this holds for
every cycle of every sequence of cycles, since each cycle instantiates these
statements), and the reap phase clears a slot only after `check_ready`
observed completion. -/
theorem c1_at_most_one_in_flight :
    (∀ (cyc : Nat) (ins outs : List SDev) (i : Nat) (d : SDev), ins[i]? = some d → d.task.isSome = true →
      ((spawn_io_tasks cyc ins outs).1)[i]? = some d) ∧
    (∀ (cyc : Nat) (ins outs : List SDev) (i : Nat) (d : SDev), outs[i]? = some d → d.task.isSome = true →
      ((spawn_io_tasks cyc ins outs).2)[i]? = some d) ∧
    (∀ d : SDev, (pollDev d).task = none → d.task = none ∨ d.ready = true) := by
  refine ⟨?_, spawn_preserves_busy_outputs, ?_⟩
  · intro cyc ins outs i d hget hbusy
    unfold spawn_io_tasks
    by_cases hc : (spawnLoop cyc ins).2 <;>
      simp only [if_pos, if_neg, hc, if_true, if_false] <;>
      exact spawnLoop_busy_preserved cyc ins i d hget hbusy
  · intro d hclear
    cases hd : d.task with
    | none => exact Or.inl rfl
    | some t =>
      by_cases hr : d.ready = true
      · exact Or.inr hr
      · unfold pollDev at hclear
        rw [hd] at hclear
        simp only [if_neg hr] at hclear
        rw [hd] at hclear
        cases hclear

/-- C1 (witness): a busy input and a busy output survive the spawn phase
untouched, and a reaped device had observed completion. -/
theorem c1_witness :
    ((spawn_io_tasks 1 [⟨true, false, some 5⟩] []).1)[0]?
      = some ⟨true, false, some 5⟩ ∧
    ((spawn_io_tasks 1 [] [⟨true, false, some 7⟩]).2)[0]?
      = some ⟨true, false, some 7⟩ ∧
    ((⟨true, true, some 2⟩ : SDev).task = none ∨
      (⟨true, true, some 2⟩ : SDev).ready = true) :=
  ⟨c1_at_most_one_in_flight.1 1 [⟨true, false, some 5⟩] [] 0 _ rfl rfl,
   c1_at_most_one_in_flight.2.1 1 [] [⟨true, false, some 7⟩] 0 _ rfl rfl,
   c1_at_most_one_in_flight.2.2 ⟨true, true, some 2⟩ rfl⟩

/-- C2 (code evaluated at the failing input): with two input devices — the
first with a pending task, the second idle with its image present — and one
idle output device, `spawn_io_tasks` spawns nothing at all: the `return`
taken for the first device aborts the whole system function, so the idle
second input and the idle output keep `task = none` instead of each
receiving one work unit as the claim states. -/
theorem c2_stalled_device_blocks_spawn :
    spawn_io_tasks 1 [⟨true, false, some 0⟩, ⟨true, false, none⟩]
        [⟨true, false, none⟩]
      = ([⟨true, false, some 0⟩, ⟨true, false, none⟩],
         [⟨true, false, none⟩]) := by
  decide

/-- C9 (code evaluated at the failing input): with two input devices — the
first with its image handle missing from the store, the second idle with its
image present — `spawn_io_tasks` spawns nothing: the `return` taken for the
first device aborts the whole function, so the second device is affected,
contrary to the claim.  The reap phase, by contrast, does treat a missing
image as a per-device no-op that keeps the completed task for retry. -/
theorem c9_missing_image_blocks_spawn :
    spawn_io_tasks 1 [⟨false, false, none⟩, ⟨true, false, none⟩] []
      = ([⟨false, false, none⟩, ⟨true, false, none⟩], []) ∧
    pollDev ⟨false, true, some 3⟩ = ⟨false, true, some 3⟩ := by
  constructor
  · decide
  · decide

/-- C8: mechanism and latency of the reap phase.  Starting from an idle
`Input` device, the cycle that spawns frame `f` leaves the presentable image
untouched (never sooner), and the following cycle, whose reap observes the
completed task, swaps the working buffer into the presentable image: the
image becomes exactly the `stream_read` decode of frame `f` performed with
the size captured at spawn time, and — because it is a content swap, not a
copy-and-discard — the working buffer simultaneously becomes the old
presentable bytes.  For every `Output` device, the reap instead copies the
presentable bytes into the working buffer, leaving the image unchanged. -/
theorem c8_reap_swaps_with_one_cycle_latency (s : InState) (f g : List Nat)
    (h : s.task = none) :
    (inputCycle f false s).image = s.image ∧
    (inputCycle g true (inputCycle f false s)).image
      = (stream_read (Except.ok f) s.ioBuf s.fourcc s.image.length).2 ∧
    (inputCycle g true (inputCycle f false s)).ioBuf = s.image ∧
    (∀ o : OutState, o.task.isSome = true →
      pollOutput true o = { o with ioBuf := o.image, task := none }) := by
  have hs1 : inputCycle f false s = { s with task := some (f, s.image.length) } := by
    unfold inputCycle spawnInput pollInput
    simp [h]
  refine ⟨?_, ?_, ?_, ?_⟩
  · rw [hs1]
  · rw [hs1]
    unfold inputCycle spawnInput pollInput
    simp
  · rw [hs1]
    unfold inputCycle spawnInput pollInput
    simp
  · intro o ho
    cases hot : o.task with
    | none => rw [hot] at ho; cases ho
    | some u =>
      unfold pollOutput
      rw [hot]
      simp

/-- C8 (witness): the two-cycle scenario at a 2-by-1 device with a mid-range
YUYV frame, and one output device reap. -/
theorem c8_witness :
    (inputCycle [16, 128, 16, 128, 16, 128, 16, 128] false
        ⟨[255, 255, 255, 255, 255, 255, 255, 255], [7, 7, 7, 7, 7, 7, 7, 7],
          yuyvFourcc, none⟩).image
      = [255, 255, 255, 255, 255, 255, 255, 255] ∧
    (inputCycle [0, 0, 0, 0] true
        (inputCycle [16, 128, 16, 128, 16, 128, 16, 128] false
          ⟨[255, 255, 255, 255, 255, 255, 255, 255], [7, 7, 7, 7, 7, 7, 7, 7],
            yuyvFourcc, none⟩)).image
      = (stream_read (Except.ok [16, 128, 16, 128, 16, 128, 16, 128])
          [7, 7, 7, 7, 7, 7, 7, 7] yuyvFourcc 8).2 ∧
    (inputCycle [0, 0, 0, 0] true
        (inputCycle [16, 128, 16, 128, 16, 128, 16, 128] false
          ⟨[255, 255, 255, 255, 255, 255, 255, 255], [7, 7, 7, 7, 7, 7, 7, 7],
            yuyvFourcc, none⟩)).ioBuf
      = [255, 255, 255, 255, 255, 255, 255, 255] ∧
    pollOutput true ⟨[1, 2], [3, 4], some ()⟩ = ⟨[1, 2], [1, 2], none⟩ := by
  have h := c8_reap_swaps_with_one_cycle_latency
    ⟨[255, 255, 255, 255, 255, 255, 255, 255], [7, 7, 7, 7, 7, 7, 7, 7],
      yuyvFourcc, none⟩
    [16, 128, 16, 128, 16, 128, 16, 128] [0, 0, 0, 0] rfl
  exact ⟨h.1, h.2.1, h.2.2.1, h.2.2.2 ⟨[1, 2], [3, 4], some ()⟩ rfl⟩

end BevyV4l
